import Mathlib

/-! Hatchet: chart dispatch, time windows and log highlighting.

A shallow embedding of `charts_handler.go` and of `highlightLog` from
`log_templ.go`, with the properties of the handler and of the highlighter
stated and proved over it.

Conventions of the embedding.

* A Go `string` is a sequence of bytes (`GoString`); `len` and slicing count
  bytes.  String literals of the source are ASCII and are written `go "..."`.
* The collaborators of the handler (database, template layer) are fields of
  an environment.  An aggregate query, whose rows the handler may read before
  it tests the error, returns the pair `(docs, err)`, with `none` for a nil
  error and `some msg` for an error with `err.Error() = msg`; `GetDatabase`
  and `GetChartTemplate`, whose value is used on success only, return `Except`.
* The handler returns the ordered list of collaborator calls it made and the
  ordered list of things it wrote to the response writer.  Logging through
  `log.Println` and the deferred `dbase.Close()` are not recorded.
* The log line of `highlightLog` is the list of its runes.
-/

namespace Hatchet

/-! ## Strings -/

/-- A Go string: an immutable sequence of bytes. -/
abbrev GoString := List UInt8

/-- An ASCII string literal of the source as a Go string. -/
def go (s : String) : GoString := s.toList.map (fun c => c.toNat.toUInt8)

/-- The UTF-8 encoding of a character. -/
def utf8EncodeRune (c : Char) : GoString :=
  let n := c.toNat
  if n < 0x80 then [n.toUInt8]
  else if n < 0x800 then [(0xC0 + n / 64).toUInt8, (0x80 + n % 64).toUInt8]
  else if n < 0x10000 then
    [(0xE0 + n / 4096).toUInt8, (0x80 + n / 64 % 64).toUInt8, (0x80 + n % 64).toUInt8]
  else
    [(0xF0 + n / 262144).toUInt8, (0x80 + n / 4096 % 64).toUInt8,
      (0x80 + n / 64 % 64).toUInt8, (0x80 + n % 64).toUInt8]

/-- A text as the Go string that holds it: the UTF-8 encoding of its characters. -/
def utf8 (s : List Char) : GoString := s.foldr (fun c acc => utf8EncodeRune c ++ acc) []

/-- The byte of the separator used by the handler, a comma. -/
def comma : UInt8 := 44

/-- Go `strings.Split(s, sep)` for a one-byte separator: all substrings of `s`
separated by `sep`; one more token than there are separators. -/
def strings.Split (s : GoString) (sep : UInt8) : List GoString :=
  match s with
  | [] => [[]]
  | c :: cs =>
    if c = sep then [] :: strings.Split cs sep
    else
      match strings.Split cs sep with
      | t :: ts => (c :: t) :: ts
      | [] => [[c]]

/-! ## charts_handler.go -/

/-- The template families. -/
def BAR_CHART : GoString := go "bar_chart"
def BUBBLE_CHART : GoString := go "bubble_chart"
def PIE_CHART : GoString := go "pie_chart"

/-- The type `Chart`. -/
structure Chart where
  Index : Int
  Title : GoString
  Descr : GoString
  URL : GoString
  deriving DecidableEq, Repr

/-- The map literal `charts`, in source order. -/
def charts : List (GoString × Chart) :=
  [ (go "instruction", ⟨0, go "select a chart", go "", go ""⟩),
    (go "ops", ⟨1, go "Average Operation Time",
      go "A chart displaying average operations time over a period of time", go "/ops?type=stats"⟩),
    (go "slowops", ⟨2, go "Slow Operation Counts",
      go "A chart displaying total counts and duration of operations", go "/slowops?type=stats"⟩),
    (go "slowops-counts", ⟨3, go "Operation Counts",
      go "A chart displaying total counts of operations", go "/slowops?type=counts"⟩),
    (go "connections-accepted", ⟨4, go "Accepted Connections",
      go "A chart displaying accepted connections from clients", go "/connections?type=accepted"⟩),
    (go "connections-time", ⟨5, go "Accepted & Ended Connections",
      go "A chart displaying accepted vs ended connections over a period of time",
      go "/connections?type=time"⟩),
    (go "connections-total", ⟨6, go "Accepted & Ended from IPs",
      go "A chart displaying accepted vs ended connections by client IPs", go "/connections?type=total"⟩),
    (go "reslen", ⟨7, go "Response Length in MB",
      go "A chart displaying total response length from client IPs", go "/reslen?type=ips"⟩) ]

/-- The zero value of `Chart`, which a Go map index yields for a missing key. -/
def Chart.zero : Chart := ⟨0, [], [], []⟩

/-- The Go expression `charts[key]`. -/
def chartsAt (key : GoString) : Chart :=
  match charts.lookup key with
  | some c => c
  | none => Chart.zero

/-- The function `getStartEndDates`. -/
def getStartEndDates (duration : GoString) : GoString × GoString :=
  let toks := strings.Split duration comma
  match toks with
  | [t0, t1] =>
    let start := if t0.length ≥ 16 then t0.take 16 else []
    let end_ := if t1.length ≥ 16 then t1.take 16 else []
    (start, end_)
  | _ => ([], [])

/-- The output field as C2 words it, in characters: the first 16 characters of a
token of at least 16 characters, and the empty string otherwise. -/
def firstSixteenCharacters (token : List Char) : List Char :=
  if 16 ≤ token.length then token.take 16 else []

/-- Modelled from the spec: the dataset information record, whose declaration
is not part of the sources; the handler reads its `Start` and `End`, the
dataset's span. -/
structure HatchetInfo where
  Start : GoString
  End : GoString
  deriving DecidableEq, Repr

/-- Modelled from the spec: a row of a time series ("each exposing a timestamp
field"); the handler reads `Date`, the remaining fields are carried along. -/
structure OpCount where
  Date : GoString
  Fields : List GoString
  deriving DecidableEq, Repr

/-- Modelled from the spec: a row of a name/value series. -/
structure NameValue where
  Name : GoString
  Value : Int
  deriving DecidableEq, Repr

/-- Modelled from the spec: a row of the remote/time and remote/total series
returned by `GetConnectionStats`; the handler reads no field of it. -/
structure Remote where
  Date : GoString
  Accepted : Int
  Ended : Int
  deriving DecidableEq, Repr

/-- The series entry of the rendering context, under the key the source uses. -/
inductive Series where
  | OpCounts (docs : List OpCount)
  | NameValues (docs : List NameValue)
  | Remote (docs : List Remote)
  deriving DecidableEq, Repr

/-- The rendering context `doc` handed to `templ.Execute`. -/
structure RenderDoc where
  Hatchet : GoString
  Data : Series
  Chart : Chart
  Type_ : GoString
  Summary : GoString
  Start : GoString
  End : GoString
  VAxisLabel : Option GoString
  deriving DecidableEq, Repr

/-- A chart template: `Execute` returns the bytes it wrote to the response
writer and its error, if any. -/
structure Template where
  Execute : RenderDoc → GoString × Option GoString

/-- The database collaborator, scoped to one request. -/
structure Database where
  GetVerbose : Bool
  GetHatchetInfo : HatchetInfo
  GetAverageOpTime : GoString → List OpCount × Option GoString
  GetSlowOpsCounts : GoString → List OpCount × Option GoString
  GetOpsCounts : GoString → List NameValue × Option GoString
  GetAcceptedConnsCounts : GoString → List NameValue × Option GoString
  GetConnectionStats : GoString → GoString → List Remote × Option GoString
  GetReslenByClients : GoString → List NameValue × Option GoString

/-- The package-level collaborators of the handler. -/
structure Env where
  GetDatabase : GoString → Except GoString Database
  GetHatchetSummary : HatchetInfo → GoString
  GetChartTemplate : GoString → Except GoString Template

/-- The request: path parameters `hatchet` and `attr`, query parameters
`type` and `duration` (empty when absent). -/
structure Request where
  hatchet : GoString
  attr : GoString
  type : GoString
  duration : GoString
  deriving DecidableEq, Repr

/-- A call to an aggregate query, to the template lookup or to `Execute`. -/
inductive Call where
  | GetAverageOpTime (duration : GoString)
  | GetSlowOpsCounts (duration : GoString)
  | GetOpsCounts (duration : GoString)
  | GetAcceptedConnsCounts (duration : GoString)
  | GetConnectionStats (chartType duration : GoString)
  | GetReslenByClients (duration : GoString)
  | GetChartTemplate (family : GoString)
  | Execute (family : GoString) (doc : RenderDoc)
  deriving DecidableEq, Repr

/-- One write to the response writer. -/
inductive Output where
  /-- The bytes written by `templ.Execute(w, doc)`. -/
  | page (bytes : GoString)
  /-- The JSON encoding of `{"ok": 0, "error": msg}`. -/
  | error (msg : GoString)
  deriving DecidableEq, Repr

/-- What the handler did: the collaborator calls, in order, and the writes to the
response writer, in order. -/
structure Response where
  calls : List Call
  body : List Output
  deriving DecidableEq, Repr

/-- Lines 64-68: the window from the dataset span, replaced by the window of
the `duration` parameter when that is not empty. -/
def startEnd (info : HatchetInfo) (duration : GoString) : GoString × GoString :=
  let w := getStartEndDates (info.Start ++ go "," ++ info.End)
  if duration ≠ [] then getStartEndDates duration else w

/-- The tail every branch shares: look the template up, build nothing more,
execute it on `doc`, and report a failure of either step as an error payload. -/
def render (env : Env) (calls : List Call) (family : GoString) (doc : RenderDoc) : Response :=
  match env.GetChartTemplate family with
  | .error e => ⟨calls ++ [.GetChartTemplate family], [.error e]⟩
  | .ok templ =>
    match templ.Execute doc with
    | (written, some e) =>
      ⟨calls ++ [.GetChartTemplate family, .Execute family doc], [.page written, .error e]⟩
    | (written, none) =>
      ⟨calls ++ [.GetChartTemplate family, .Execute family doc], [.page written]⟩

/-- The handler `ChartsHandler`. -/
def ChartsHandler (env : Env) (r : Request) : Response :=
  let hatchetName := r.hatchet
  let attr := r.attr
  match env.GetDatabase hatchetName with
  | .error e => ⟨[], [.error e]⟩
  | .ok dbase =>
    let info := dbase.GetHatchetInfo
    let summary := env.GetHatchetSummary info
    let duration := r.duration
    let (start, end_) := startEnd info duration
    if attr = go "ops" then
      let chartType := go "ops"
      let (docs, err) := dbase.GetAverageOpTime duration
      let start := match docs.head? with
        | some d => d.Date
        | none => start
      let end_ := match docs.getLast? with
        | some d => d.Date
        | none => end_
      match err with
      | some e => ⟨[.GetAverageOpTime duration], [.error e]⟩
      | none =>
        render env [.GetAverageOpTime duration] BUBBLE_CHART
          ⟨hatchetName, .OpCounts docs, chartsAt chartType, chartType, summary, start, end_,
            some (go "seconds")⟩
    else if attr = go "slowops" then
      let chartType := r.type
      if chartType = go "" ∨ chartType = go "stats" then
        let chartType := go "slowops"
        let (docs, err) := dbase.GetSlowOpsCounts duration
        let start := match docs.head? with
          | some d => d.Date
          | none => start
        let end_ := match docs.getLast? with
          | some d => d.Date
          | none => end_
        match err with
        | some e => ⟨[.GetSlowOpsCounts duration], [.error e]⟩
        | none =>
          render env [.GetSlowOpsCounts duration] BUBBLE_CHART
            ⟨hatchetName, .OpCounts docs, chartsAt chartType, chartType, summary, start, end_,
              some (go "count")⟩
      else if chartType = go "counts" then
        let chartType := go "slowops-counts"
        let (docs, err) := dbase.GetOpsCounts duration
        match err with
        | some e => ⟨[.GetOpsCounts duration], [.error e]⟩
        | none =>
          render env [.GetOpsCounts duration] PIE_CHART
            ⟨hatchetName, .NameValues docs, chartsAt chartType, chartType, summary, start, end_,
              none⟩
      else ⟨[], []⟩
    else if attr = go "connections" then
      let chartType := r.type
      if chartType = go "" ∨ chartType = go "accepted" then
        let chartType := go "connections-accepted"
        let (docs, err) := dbase.GetAcceptedConnsCounts duration
        match err with
        | some e => ⟨[.GetAcceptedConnsCounts duration], [.error e]⟩
        | none =>
          render env [.GetAcceptedConnsCounts duration] PIE_CHART
            ⟨hatchetName, .NameValues docs, chartsAt chartType, chartType, summary, start, end_,
              none⟩
      else
        let (docs, err) := dbase.GetConnectionStats chartType duration
        match err with
        | some e => ⟨[.GetConnectionStats chartType duration], [.error e]⟩
        | none =>
          let chartType' := go "connections-" ++ chartType
          render env [.GetConnectionStats chartType duration] BAR_CHART
            ⟨hatchetName, .Remote docs, chartsAt chartType', chartType', summary, start, end_,
              none⟩
    else if attr = go "reslen" then
      let chartType := go "reslen"
      let (docs, err) := dbase.GetReslenByClients duration
      match err with
      | some e => ⟨[.GetReslenByClients duration], [.error e]⟩
      | none =>
        render env [.GetReslenByClients duration] PIE_CHART
          ⟨hatchetName, .NameValues docs, chartsAt chartType, chartType, summary, start, end_,
            none⟩
    else ⟨[], []⟩

/-! ## Vocabulary of the statements about the handler -/

/-- The response shows a rendering that followed the aggregate query `q`: the
calls are `q`, the lookup of `family`, and the execution of that template on a
context whose type key is `key` and whose descriptor is `charts[key]`. -/
def rendersWith (res : Response) (q : Call) (key family : GoString) : Bool :=
  match res.calls with
  | [q', .GetChartTemplate f, .Execute f' doc] =>
    decide (q' = q ∧ f = family ∧ f' = family ∧ doc.Type_ = key ∧ doc.Chart = chartsAt key)
  | _ => false

/-- The window `(Start, End)` of the context handed to `Execute`, if the
handler got that far. -/
def renderedWindow (res : Response) : Option (GoString × GoString) :=
  match res.calls.getLast? with
  | some (.Execute _ doc) => some (doc.Start, doc.End)
  | _ => none

/-- The rendering context handed to `Execute`, if the handler got that far. -/
def renderedDoc (res : Response) : Option RenderDoc :=
  match res.calls.getLast? with
  | some (.Execute _ doc) => some doc
  | _ => none

/-- The recognized combinations: attribute `ops`, `connections` or `reslen`
with any subtype, and attribute `slowops` with subtype empty, `stats` or
`counts`. -/
def recognized (r : Request) : Bool :=
  decide (r.attr = go "ops" ∨ r.attr = go "connections" ∨ r.attr = go "reslen"
    ∨ (r.attr = go "slowops" ∧ (r.type = go "" ∨ r.type = go "stats" ∨ r.type = go "counts")))

/-- The error, if any, that the database returns for an aggregate query. -/
def queryError (dbase : Database) : Call → Option GoString
  | .GetAverageOpTime d => (dbase.GetAverageOpTime d).2
  | .GetSlowOpsCounts d => (dbase.GetSlowOpsCounts d).2
  | .GetOpsCounts d => (dbase.GetOpsCounts d).2
  | .GetAcceptedConnsCounts d => (dbase.GetAcceptedConnsCounts d).2
  | .GetConnectionStats t d => (dbase.GetConnectionStats t d).2
  | .GetReslenByClients d => (dbase.GetReslenByClients d).2
  | .GetChartTemplate _ => none
  | .Execute _ _ => none

/-- Whether a call is an aggregate query. -/
def Call.isQuery : Call → Bool
  | .GetChartTemplate _ => false
  | .Execute _ _ => false
  | _ => true

/-- What `render` can do after the query `q` succeeded: report a failed
template lookup, or execute the template and write its page, followed by the
error payload when the execution failed. -/
def RenderOutcome (env : Env) (res : Response) (q : Call) : Prop :=
  ∃ family,
    (∃ e, env.GetChartTemplate family = .error e
        ∧ res = ⟨[q, .GetChartTemplate family], [.error e]⟩)
    ∨ (∃ templ doc written, env.GetChartTemplate family = .ok templ
        ∧ ((templ.Execute doc = (written, none)
            ∧ res = ⟨[q, .GetChartTemplate family, .Execute family doc], [.page written]⟩)
          ∨ (∃ e, templ.Execute doc = (written, some e)
            ∧ res = ⟨[q, .GetChartTemplate family, .Execute family doc],
                [.page written, .error e]⟩)))

/-! ## Sample collaborators, used to exhibit concrete runs -/

/-- A template that writes a page naming the chart key and succeeds. -/
def sampleTemplate : Template :=
  ⟨fun doc => (go "<html>" ++ doc.Type_ ++ go "</html>", none)⟩

/-- A template whose execution stops with an error after writing the head of
the page. -/
def brokenTemplate : Template :=
  ⟨fun _ => (go "<html>", some (go "boom"))⟩

/-- A database whose queries all succeed with a few rows. -/
def sampleDatabase : Database where
  GetVerbose := false
  GetHatchetInfo := ⟨go "2023-01-01T00:00:00Z", go "2023-01-31T00:00:00Z"⟩
  GetAverageOpTime := fun _ =>
    ([⟨go "2023-01-02T10:00", []⟩, ⟨go "2023-01-03T11:00", []⟩], none)
  GetSlowOpsCounts := fun _ =>
    ([⟨go "2023-01-04T10:00", []⟩, ⟨go "2023-01-05T11:00", []⟩], none)
  GetOpsCounts := fun _ => ([⟨go "find", 3⟩], none)
  GetAcceptedConnsCounts := fun _ => ([⟨go "10.0.0.1", 5⟩], none)
  GetConnectionStats := fun _ _ => ([⟨go "2023-01-06T10:00", 4, 2⟩], none)
  GetReslenByClients := fun _ => ([⟨go "10.0.0.1", 7⟩], none)

/-- A database whose queries all fail. -/
def failingDatabase : Database where
  GetVerbose := false
  GetHatchetInfo := ⟨go "2023-01-01T00:00:00Z", go "2023-01-31T00:00:00Z"⟩
  GetAverageOpTime := fun _ => ([], some (go "no such table"))
  GetSlowOpsCounts := fun _ => ([], some (go "no such table"))
  GetOpsCounts := fun _ => ([], some (go "no such table"))
  GetAcceptedConnsCounts := fun _ => ([], some (go "no such table"))
  GetConnectionStats := fun _ _ => ([], some (go "no such table"))
  GetReslenByClients := fun _ => ([], some (go "no such table"))

/-- Environments over the sample collaborators. -/
def sampleEnv : Env :=
  ⟨fun _ => .ok sampleDatabase, fun _ => go "summary", fun _ => .ok sampleTemplate⟩

def brokenTemplateEnv : Env :=
  ⟨fun _ => .ok sampleDatabase, fun _ => go "summary", fun _ => .ok brokenTemplate⟩

def failingEnv : Env :=
  ⟨fun _ => .ok failingDatabase, fun _ => go "summary", fun _ => .ok sampleTemplate⟩

/-! ## log_templ.go: the package `regexp` as `highlightLog` uses it

`highlightLog` compiles patterns with `regexp.MustCompile` and rewrites the
line with `ReplaceAllString(log, "<mark>$1</mark>")`.  The library is modelled,
after its documentation, on the fragment of its syntax that the three fixed
patterns and the terms examined below need: literals, the dot, `\d`, `\w`,
`\s`, the anchors, capturing groups, alternation and the greedy repetitions.
An invalid pattern of the fragment compiles to `Failure.panic`, as
`MustCompile` panics; a pattern outside the fragment compiles to
`Failure.unmodelled`, which says nothing about what the program does with it.
The line is the list of its runes, the unit in which the library matches, and
positions count runes. -/

/-- The syntax tree of the modelled fragment. -/
inductive Regex where
  /-- The empty pattern. -/
  | empty
  /-- A literal rune; with `fold`, under the flag `i`, it matches case-insensitively. -/
  | char (c : Char) (fold : Bool)
  /-- The dot: any rune but a newline. -/
  | anyNotNL
  /-- The class `\d`. -/
  | digit
  /-- The class `\w`. -/
  | word
  /-- The class `\s`. -/
  | space
  /-- The anchor `^` without the flag `m`: the beginning of the text. -/
  | beginText
  /-- The anchor `$` without the flag `m`: the end of the text. -/
  | endText
  | cat (a b : Regex)
  | alt (a b : Regex)
  | star (a : Regex)
  | plus (a : Regex)
  | quest (a : Regex)
  /-- A capturing group with its number. -/
  | group (n : Nat) (a : Regex)
  deriving DecidableEq, Repr

/-- Why a call into the library gives no result. -/
inductive Failure where
  /-- The pattern is invalid and `MustCompile` panics. -/
  | panic
  /-- The pattern lies outside the modelled fragment. -/
  | unmodelled
  deriving DecidableEq, Repr

deriving instance DecidableEq for Except

/-- The concatenation of a list of patterns. -/
def mkCat : List Regex → Regex
  | [] => .empty
  | [a] => a
  | a :: b :: rest => .cat a (mkCat (b :: rest))

/-- The alternation of a list of patterns, the first one preferred. -/
def mkAlt : List Regex → Regex
  | [] => .empty
  | [a] => a
  | a :: b :: rest => .alt a (mkAlt (b :: rest))

/-- An open group of the parser: its capture number, the alternatives already
closed by a `|`, and the items of the alternative being read. -/
structure Frame where
  cap : Nat
  alts : List Regex
  items : List Regex
  deriving DecidableEq, Repr

/-- The pattern of a group at its end: the alternation of its alternatives. -/
def Frame.close (f : Frame) : Regex := mkAlt (f.alts ++ [mkCat f.items])

/-- The state of the parser, which reads the pattern from left to right as the
library's parser does: the enclosing open groups, the innermost one, the
number of capture groups opened so far, and what the last character was. -/
structure ParseState where
  stack : List Frame
  cur : Frame
  numCap : Nat
  escaped : Bool
  afterRepeat : Bool
  afterOpen : Bool
  deriving DecidableEq, Repr

/-- The state at the start of a pattern: no group open, no capture yet. -/
def ParseState.init : ParseState := ⟨[], ⟨0, [], []⟩, 0, false, false, false⟩

/-- Add an item to the alternative being read. -/
def ParseState.push (s : ParseState) (a : Regex) : ParseState :=
  { s with cur := { s.cur with items := s.cur.items ++ [a] },
           escaped := false, afterRepeat := false, afterOpen := false }

/-- A repetition operator applies to the last item; it is an error after
another repetition operator (`a**`) and where there is no item to repeat. -/
def ParseState.repetition (s : ParseState) (op : Regex → Regex) : Except Failure ParseState :=
  if s.afterRepeat then .error .panic
  else
    match s.cur.items.getLast? with
    | none => .error .panic
    | some a =>
      .ok { s with cur := { s.cur with items := s.cur.items.dropLast ++ [op a] },
                   afterRepeat := true, afterOpen := false }

/-- ASCII letters and digits. -/
def isAlnum (c : Char) : Bool :=
  ('0' ≤ c ∧ c ≤ '9') ∨ ('a' ≤ c ∧ c ≤ 'z') ∨ ('A' ≤ c ∧ c ≤ 'Z')

/-- The groups the model lets a pattern nest. -/
def maxNesting : Nat := 100

/-- One character of the pattern.  After a backslash: `\d`, `\w`, `\s` (without
the flag `i`) and an escaped ASCII punctuation character, a literal.  A `(`
opens the next capture group, a `)` closes the innermost one and is an error
when none is open.  A `?` after `(` (flags, non-capturing groups) or after a
repetition (the lazy operators), a bracket, a brace and a non-ASCII rune are
outside the fragment. -/
def parseStep (fold : Bool) (c : Char) (s : ParseState) : Except Failure ParseState :=
  if s.escaped then
    if c = 'd' ∨ c = 'w' ∨ c = 's' then
      if fold then .error .unmodelled
      else .ok (s.push (if c = 'd' then .digit else if c = 'w' then .word else .space))
    else if c.toNat < 128 ∧ ¬ isAlnum c then .ok (s.push (.char c fold))
    else .error .unmodelled
  else if c = '\\' then .ok { s with escaped := true, afterRepeat := false, afterOpen := false }
  else if c = '(' then
    if maxNesting ≤ s.stack.length then .error .unmodelled
    else
      .ok { stack := s.cur :: s.stack, cur := ⟨s.numCap + 1, [], []⟩, numCap := s.numCap + 1,
            escaped := false, afterRepeat := false, afterOpen := true }
  else if c = ')' then
    match s.stack with
    | [] => .error .panic
    | parent :: stack =>
      .ok { stack := stack,
            cur := { parent with items := parent.items ++ [.group s.cur.cap s.cur.close] },
            numCap := s.numCap, escaped := false, afterRepeat := false, afterOpen := false }
  else if c = '|' then
    .ok { s with cur := { s.cur with alts := s.cur.alts ++ [mkCat s.cur.items], items := [] },
                 afterRepeat := false, afterOpen := false }
  else if c = '?' then
    if s.afterOpen ∨ s.afterRepeat then .error .unmodelled else s.repetition .quest
  else if c = '*' then s.repetition .star
  else if c = '+' then s.repetition .plus
  else if c = '.' then .ok (s.push .anyNotNL)
  else if c = '^' then .ok (s.push .beginText)
  else if c = '$' then .ok (s.push .endText)
  else if c = '[' ∨ c = ']' ∨ c = '\x7b' ∨ c = '\x7d' then .error .unmodelled
  else if c.toNat < 128 then .ok (s.push (.char c fold))
  else .error .unmodelled

/-- The parser: at the end of the pattern a pending backslash or a group left
open is an error. -/
def parseLoop (fold : Bool) : List Char → ParseState → Except Failure Regex
  | [], s =>
    if s.escaped then .error .panic
    else
      match s.stack with
      | [] => .ok s.cur.close
      | _ :: _ => .error .panic
  | c :: rest, s =>
    match parseStep fold c s with
    | .ok s' => parseLoop fold rest s'
    | .error e => .error e

/-- Whether the pattern starts with the flag group `(?i)`. -/
def hasFoldFlag : List Char → Bool
  | '(' :: '?' :: 'i' :: ')' :: _ => true
  | _ => false

/-- Whether the pattern can match the empty string. -/
def Regex.nullable : Regex → Bool
  | .empty => true
  | .char _ _ => false
  | .anyNotNL => false
  | .digit => false
  | .word => false
  | .space => false
  | .beginText => true
  | .endText => true
  | .cat a b => a.nullable && b.nullable
  | .alt a b => a.nullable || b.nullable
  | .star _ => true
  | .plus a => a.nullable
  | .quest _ => true
  | .group _ a => a.nullable

/-- The patterns the matcher below is taken to model: those that repeat, with
`*` or `+`, only patterns that cannot match the empty string. -/
def Regex.supported : Regex → Bool
  | .cat a b => a.supported && b.supported
  | .alt a b => a.supported && b.supported
  | .star a => !a.nullable && a.supported
  | .plus a => !a.nullable && a.supported
  | .quest a => a.supported
  | .group _ a => a.supported
  | _ => true

/-- Go `regexp.MustCompile` on the modelled fragment. -/
def MustCompile (pattern : List Char) : Except Failure Regex :=
  let parsed :=
    if hasFoldFlag pattern then parseLoop true (pattern.drop 4) ParseState.init
    else parseLoop false pattern ParseState.init
  match parsed with
  | .ok re => if re.supported then .ok re else .error .unmodelled
  | .error e => .error e

/-- The capture registers: group number, start and end, most recent first. -/
abbrev Caps := List (Nat × Nat × Nat)

/-- The span of group `n`, if the group took part in the match. -/
def Caps.get (caps : Caps) (n : Nat) : Option (Nat × Nat) := caps.lookup n

/-- A match: start, end and capture registers. -/
structure Match where
  start : Nat
  stop : Nat
  caps : Caps
  deriving DecidableEq, Repr

/-- The runes of the classes `\d`, `\w` and `\s`, which are ASCII classes. -/
def isDigit (c : Char) : Bool := '0' ≤ c ∧ c ≤ '9'
def isWord (c : Char) : Bool := isAlnum c ∨ c = '_'
def isSpace (c : Char) : Bool := c = '\t' ∨ c = '\n' ∨ c = '\x0c' ∨ c = '\r' ∨ c = ' '

/-- The lower-case form of an ASCII capital letter; any other rune unchanged. -/
def toLowerASCII (c : Char) : Char :=
  if 'A' ≤ c ∧ c ≤ 'Z' then Char.ofNat (c.toNat + 32) else c

/-- Whether the text rune `d` matches the ASCII literal `c` of a pattern.  Under
the flag `i` a letter matches the runes of its case-folding orbit: its two
cases and, for `k` and `s`, the Kelvin sign and the long s. -/
def matchChar (c : Char) (fold : Bool) (d : Char) : Bool :=
  d = c ∨ (fold ∧ (('a' ≤ toLowerASCII c ∧ toLowerASCII c ≤ 'z') ∧
    (toLowerASCII d = toLowerASCII c
      ∨ (toLowerASCII c = 'k' ∧ d = '\u212A') ∨ (toLowerASCII c = 's' ∧ d = '\u017F'))))

/-- A continuation of the matcher: what follows, from a position, the rest of the
text there and the capture registers. -/
abbrev Cont := Nat → List Char → Caps → Option (Nat × Caps)

/-- A pattern that consumes one rune satisfying `p`. -/
def one (p : Char → Bool) (i : Nat) (rest : List Char) (caps : Caps) (k : Cont) :
    Option (Nat × Caps) :=
  match rest with
  | d :: rest' => if p d then k (i + 1) rest' caps else none
  | [] => none

/-- The loop of a greedy repetition: another round of the body is preferred to
leaving the loop; a round has to consume something, and `fuel`, the number of
runes left, bounds the number of rounds. -/
def starLoop (body : Nat → List Char → Caps → Cont → Option (Nat × Caps)) (k : Cont) :
    Nat → Nat → List Char → Caps → Option (Nat × Caps)
  | 0, i, rest, caps => k i rest caps
  | fuel + 1, i, rest, caps =>
    match body i rest caps
        (fun j rest' caps' => if i < j then starLoop body k fuel j rest' caps' else none) with
    | some r => some r
    | none => k i rest caps

/-- The matcher, by backtracking in the library's order of preference
(leftmost-first): the first alternative before the second, a repetition
greedy.  It returns the end of the match and the capture registers. -/
def Regex.run : Regex → Nat → List Char → Caps → Cont → Option (Nat × Caps)
  | .empty, i, rest, caps, k => k i rest caps
  | .char c fold, i, rest, caps, k => one (matchChar c fold) i rest caps k
  | .anyNotNL, i, rest, caps, k => one (fun d => d ≠ '\n') i rest caps k
  | .digit, i, rest, caps, k => one isDigit i rest caps k
  | .word, i, rest, caps, k => one isWord i rest caps k
  | .space, i, rest, caps, k => one isSpace i rest caps k
  | .beginText, i, rest, caps, k => if i = 0 then k i rest caps else none
  | .endText, i, rest, caps, k => if rest = [] then k i rest caps else none
  | .cat a b, i, rest, caps, k => a.run i rest caps (fun j rest' caps' => b.run j rest' caps' k)
  | .alt a b, i, rest, caps, k =>
    match a.run i rest caps k with
    | some r => some r
    | none => b.run i rest caps k
  | .star a, i, rest, caps, k => starLoop a.run k rest.length i rest caps
  | .plus a, i, rest, caps, k =>
    a.run i rest caps (fun j rest' caps' => starLoop a.run k rest'.length j rest' caps')
  | .quest a, i, rest, caps, k =>
    match a.run i rest caps k with
    | some r => some r
    | none => k i rest caps
  | .group n a, i, rest, caps, k =>
    a.run i rest caps (fun j rest' caps' => k j rest' ((n, i, j) :: caps'))

/-- The preferred match that starts exactly at position `i`, where `rest` is the
text from there. -/
def matchAt (re : Regex) (i : Nat) (rest : List Char) : Option Match :=
  match re.run i rest [] (fun j _ caps => some (j, caps)) with
  | some (j, caps) => some ⟨i, j, caps⟩
  | none => none

/-- The preferred match at the leftmost position, from `i` on, that has one. -/
def findFrom (re : Regex) : Nat → List Char → Option Match
  | i, [] => matchAt re i []
  | i, c :: rest =>
    match matchAt re i (c :: rest) with
    | some m => some m
    | none => findFrom re (i + 1) rest

/-- Go `re.doExecute` at `pos`: the leftmost match starting at or after `pos`. -/
def find (re : Regex) (src : List Char) (pos : Nat) : Option Match :=
  findFrom re pos (src.drop pos)

/-- Go `src[lo:hi]`. -/
def slice (src : List Char) (lo hi : Nat) : List Char := (src.drop lo).take (hi - lo)

/-- Go `Expand` of the template `<mark>$1</mark>`: `$1` is the text of group 1,
or nothing when group 1 took no part in the match. -/
def expandMark (src : List Char) (m : Match) : List Char :=
  "<mark>".toList ++
    (match m.caps.get 1 with
      | some (lo, hi) => slice src lo hi
      | none => []) ++ "</mark>".toList

/-- The loop of Go `replaceAll`: copy the text up to the next match, put the
replacement (but not for an empty match right after the previous match), and
move the search past the match, by at least one rune.  `fuel` bounds the
number of rounds, one more than the runes of `src`. -/
def replaceAllLoop (re : Regex) (src : List Char) :
    Nat → Nat → Nat → List Char → List Char
  | 0, _, lastMatchEnd, buf => buf ++ src.drop lastMatchEnd
  | fuel + 1, searchPos, lastMatchEnd, buf =>
    if searchPos ≤ src.length then
      match find re src searchPos with
      | none => buf ++ src.drop lastMatchEnd
      | some a =>
        let buf := buf ++ slice src lastMatchEnd a.start
        let buf := if a.stop > lastMatchEnd ∨ a.start = 0 then buf ++ expandMark src a else buf
        let width := if searchPos < src.length then 1 else 0
        let searchPos :=
          if searchPos + width > a.stop then searchPos + width
          else if searchPos + 1 > a.stop then searchPos + 1
          else a.stop
        replaceAllLoop re src fuel searchPos a.stop buf
    else buf ++ src.drop lastMatchEnd

/-- Go `re.ReplaceAllString(src, "<mark>$1</mark>")`. -/
def ReplaceAllString (re : Regex) (src : List Char) : List Char :=
  replaceAllLoop re src (src.length + 1) 0 0 []

/-- The two statements of each pass: `re = regexp.MustCompile(pattern)` and
`log = re.ReplaceAllString(log, "<mark>$1</mark>")`. -/
def markAll (pattern : List Char) (log : List Char) : Except Failure (List Char) :=
  match MustCompile pattern with
  | .ok re => .ok (ReplaceAllString re log)
  | .error e => .error e

/-- One pass of the loop over `params`: compile `"(?i)(" + param + ")"` and
replace every match by `<mark>$1</mark>`. -/
def highlightParam (param : List Char) (log : List Char) : Except Failure (List Char) :=
  markAll ("(?i)(".toList ++ param ++ ")".toList) log

/-- The loop over `params`. -/
def highlightParams : List (List Char) → List Char → Except Failure (List Char)
  | [], log => .ok log
  | param :: params, log =>
    match highlightParam param log with
    | .ok log' => highlightParams params log'
    | .error e => .error e

/-- The function `highlightLog`: the three fixed passes, then one pass for each
extra term. -/
def highlightLog (log : List Char) (params : List (List Char)) : Except Failure (List Char) :=
  match markAll "(\"?(planSummary|errMsg)\"?:\\s?\"?\\w+\"?)".toList log with
  | .error e => .error e
  | .ok log =>
    match markAll "((\\d+ms$))".toList log with
    | .error e => .error e
    | .ok log =>
      match markAll "((\"?(keysExamined|keysInserted|docsExamined|nreturned|nMatched|nModified|ndeleted|ninserted|reslen)\"?:)\\d+)".toList log with
      | .error e => .error e
      | .ok log => highlightParams params log


/-! ## Properties of `strings.Split` and `getStartEndDates` -/

theorem Split_ne_nil (s : GoString) (sep : UInt8) : strings.Split s sep ≠ [] := by
  induction s with
  | nil => simp [strings.Split]
  | cons c cs ih =>
    unfold strings.Split
    split
    · simp
    · split <;> simp

theorem Split_length (s : GoString) (sep : UInt8) :
    (strings.Split s sep).length = s.count sep + 1 := by
  induction s with
  | nil => simp [strings.Split]
  | cons c cs ih =>
    unfold strings.Split
    by_cases h : c = sep
    · subst h
      simp [ih]
    · have hc : (c == sep) = false := by simpa using h
      simp only [h, if_false]
      split
      · next t ts heq =>
        rw [heq] at ih
        simp [List.count_cons, hc] at ih ⊢
        omega
      · next heq => exact absurd heq (Split_ne_nil cs sep)

theorem Split_of_not_mem (a : GoString) (sep : UInt8) (h : sep ∉ a) :
    strings.Split a sep = [a] := by
  induction a with
  | nil => simp [strings.Split]
  | cons c cs ih =>
    have hc : c ≠ sep := fun e => h (by simp [e])
    have hcs : sep ∉ cs := fun e => h (by simp [e])
    unfold strings.Split
    simp [hc, ih hcs]

theorem Split_append (a b : GoString) (sep : UInt8) (h : sep ∉ a) :
    strings.Split (a ++ sep :: b) sep = a :: strings.Split b sep := by
  induction a with
  | nil => simp [strings.Split]
  | cons c cs ih =>
    have hc : c ≠ sep := fun e => h (by simp [e])
    have hcs : sep ∉ cs := fun e => h (by simp [e])
    have step : strings.Split (c :: (cs ++ sep :: b)) sep =
        (match strings.Split (cs ++ sep :: b) sep with
          | t :: ts => (c :: t) :: ts
          | [] => [[c]]) := by
      rw [strings.Split]
      simp [hc]
    rw [List.cons_append, step, ih hcs]

theorem Split_single (sep : UInt8) :
    ∀ (s t : GoString), strings.Split s sep = [t] → s = t ∧ sep ∉ t := by
  intro s
  induction s with
  | nil =>
    intro t h
    simp [strings.Split] at h
    subst h
    simp
  | cons c cs ih =>
    intro t h
    rw [strings.Split] at h
    by_cases hc : c = sep
    · simp only [hc, if_true] at h
      simp only [List.cons.injEq] at h
      exact absurd h.2 (Split_ne_nil cs sep)
    · simp only [hc, if_false] at h
      split at h
      · next t' ts heq =>
        simp only [List.cons.injEq] at h
        obtain ⟨h1, h2⟩ := h
        subst h1 h2
        obtain ⟨e, hn⟩ := ih t' heq
        subst e
        refine ⟨rfl, ?_⟩
        simp only [List.mem_cons, not_or]
        exact ⟨fun e => hc e.symm, hn⟩
      · next heq => exact absurd heq (Split_ne_nil cs sep)

theorem Split_pair (sep : UInt8) :
    ∀ (s t0 t1 : GoString), strings.Split s sep = [t0, t1] →
      s = t0 ++ sep :: t1 ∧ sep ∉ t0 ∧ sep ∉ t1 := by
  intro s
  induction s with
  | nil =>
    intro t0 t1 h
    simp [strings.Split] at h
  | cons c cs ih =>
    intro t0 t1 h
    rw [strings.Split] at h
    by_cases hc : c = sep
    · simp only [hc, if_true] at h
      simp only [List.cons.injEq] at h
      obtain ⟨h1, h2⟩ := h
      subst h1
      obtain ⟨e, hn⟩ := Split_single sep cs t1 h2
      subst e
      exact ⟨by simp [hc], by simp, hn⟩
    · simp only [hc, if_false] at h
      split at h
      · next t' ts heq =>
        simp only [List.cons.injEq] at h
        obtain ⟨h1, h2⟩ := h
        subst h1 h2
        obtain ⟨e, hn0, hn1⟩ := ih t' t1 heq
        refine ⟨by rw [e]; rfl, ?_, hn1⟩
        simp only [List.mem_cons, not_or]
        exact ⟨fun e => hc e.symm, hn0⟩
      · next heq => exact absurd heq (Split_ne_nil cs sep)

theorem getStartEndDates_of_split (duration t0 t1 : GoString)
    (h : strings.Split duration comma = [t0, t1]) :
    getStartEndDates duration =
      (if 16 ≤ t0.length then t0.take 16 else [], if 16 ≤ t1.length then t1.take 16 else []) := by
  simp [getStartEndDates, h]

/-- C2 as stated fails: the code counts bytes, not characters.  A token of nine
characters that fill 27 bytes is cut to its first 16 bytes, where the claim
gives the empty string; a token of 16 characters whose last one fills two bytes
is cut in the middle of that character, where the claim gives the token
unchanged. -/
theorem getStartEndDates_counts_bytes :
    strings.Split (utf8 "日本語日本語日本語,2023-01-01T00:0é".toList) comma
        = [utf8 "日本語日本語日本語".toList, utf8 "2023-01-01T00:0é".toList]
      ∧ "日本語日本語日本語".toList.length = 9
      ∧ firstSixteenCharacters "日本語日本語日本語".toList = []
      ∧ "2023-01-01T00:0é".toList.length = 16
      ∧ firstSixteenCharacters "2023-01-01T00:0é".toList = "2023-01-01T00:0é".toList
      ∧ getStartEndDates (utf8 "日本語日本語日本語,2023-01-01T00:0é".toList)
        = ((utf8 "日本語日本語日本語".toList).take 16, (utf8 "2023-01-01T00:0é".toList).take 16)
      ∧ (getStartEndDates (utf8 "日本語日本語日本語,2023-01-01T00:0é".toList)).1
        ≠ utf8 (firstSixteenCharacters "日本語日本語日本語".toList)
      ∧ (getStartEndDates (utf8 "日本語日本語日本語,2023-01-01T00:0é".toList)).2
        ≠ utf8 (firstSixteenCharacters "2023-01-01T00:0é".toList) := by
  decide

/-- C2 amended: when the duration splits on the comma into exactly two tokens,
which are then the parts of the duration before and after its only comma, each
output field is, independently, the first 16 bytes of its token if the token
has at least 16 bytes and empty otherwise; with both tokens of at least 16
bytes the result is the pair of the two 16-byte heads, unchanged. -/
theorem getStartEndDates_two_tokens (duration t0 t1 : GoString)
    (h : strings.Split duration comma = [t0, t1]) :
    (duration = t0 ++ comma :: t1 ∧ comma ∉ t0 ∧ comma ∉ t1)
      ∧ getStartEndDates duration =
        (if 16 ≤ t0.length then t0.take 16 else [], if 16 ≤ t1.length then t1.take 16 else [])
      ∧ (16 ≤ t0.length → 16 ≤ t1.length →
          getStartEndDates duration = (t0.take 16, t1.take 16)) := by
  have main := getStartEndDates_of_split duration t0 t1 h
  refine ⟨Split_pair comma duration t0 t1 h, main, fun h0 h1 => ?_⟩
  rw [main, if_pos h0, if_pos h1]

theorem getStartEndDates_two_tokens_witness :
    strings.Split (go "2023-01-01T00:00:00Z,short") comma = [go "2023-01-01T00:00:00Z", go "short"]
      ∧ getStartEndDates (go "2023-01-01T00:00:00Z,short") = (go "2023-01-01T00:00", go "") :=
  ⟨by decide,
    (getStartEndDates_two_tokens (go "2023-01-01T00:00:00Z,short") (go "2023-01-01T00:00:00Z")
      (go "short") (by decide)).2.1.trans (by decide)⟩

/-- C3: a duration that does not split on the comma into exactly two tokens,
that is one whose number of commas is not one, gives two empty strings. -/
theorem getStartEndDates_not_two_tokens (duration : GoString)
    (h : (strings.Split duration comma).length ≠ 2) :
    getStartEndDates duration = ([], []) ∧ duration.count comma ≠ 1 := by
  have hc : duration.count comma ≠ 1 := by
    rw [Split_length] at h
    omega
  refine ⟨?_, hc⟩
  unfold getStartEndDates
  generalize strings.Split duration comma = toks at h
  match toks, h with
  | [], _ => rfl
  | [_], _ => rfl
  | [_, _], h => exact absurd rfl h
  | _ :: _ :: _ :: _, _ => rfl

theorem getStartEndDates_not_two_tokens_witness :
    getStartEndDates (go "2023-01-01T00:00:00Z") = ([], [])
      ∧ getStartEndDates (go "2023-01-01T00:00,2023-01-02T00:00,2023-01-03T00:00") = ([], []) :=
  ⟨(getStartEndDates_not_two_tokens (go "2023-01-01T00:00:00Z") (by decide)).1,
    (getStartEndDates_not_two_tokens
      (go "2023-01-01T00:00,2023-01-02T00:00,2023-01-03T00:00") (by decide)).1⟩

/-- C4 as stated fails: with an empty duration and a dataset span given to the
second, the window before any override is cut to the minute, not the span
itself. -/
theorem startEnd_empty_duration_not_unchanged :
    startEnd ⟨go "2023-01-01T00:00:00Z", go "2023-01-02T00:00:00Z"⟩ (go "")
        = (go "2023-01-01T00:00", go "2023-01-02T00:00")
      ∧ startEnd ⟨go "2023-01-01T00:00:00Z", go "2023-01-02T00:00:00Z"⟩ (go "")
        ≠ (go "2023-01-01T00:00:00Z", go "2023-01-02T00:00:00Z") := by
  decide

/-- C4 amended: with an empty duration and dataset bounds free of commas, the
window before any override is each bound cut to its first 16 bytes when it has
at least 16 bytes and empty otherwise; it is the span unchanged exactly when
each bound is 16 bytes long or empty. -/
theorem startEnd_empty_duration (info : HatchetInfo)
    (hs : comma ∉ info.Start) (he : comma ∉ info.End) :
    startEnd info [] =
        (if 16 ≤ info.Start.length then info.Start.take 16 else [],
         if 16 ≤ info.End.length then info.End.take 16 else [])
      ∧ (startEnd info [] = (info.Start, info.End) ↔
          (info.Start.length = 16 ∨ info.Start = []) ∧ (info.End.length = 16 ∨ info.End = [])) := by
  have hsplit : strings.Split (info.Start ++ go "," ++ info.End) comma = [info.Start, info.End] := by
    have hg : go "," = [comma] := by decide
    rw [hg, List.append_assoc, List.singleton_append, Split_append _ _ _ hs,
      Split_of_not_mem _ _ he]
  have main := getStartEndDates_of_split _ _ _ hsplit
  have hw : startEnd info [] =
      (if 16 ≤ info.Start.length then info.Start.take 16 else [],
       if 16 ≤ info.End.length then info.End.take 16 else []) := by
    unfold startEnd
    rw [main]
    simp
  have cut : ∀ s : GoString,
      ((if 16 ≤ s.length then s.take 16 else []) = s ↔ (s.length = 16 ∨ s = [])) := by
    intro s
    by_cases h16 : 16 ≤ s.length
    · rw [if_pos h16, List.take_eq_self_iff]
      constructor
      · intro h
        left
        omega
      · rintro (h | h)
        · omega
        · subst h
          simp at h16
    · rw [if_neg h16]
      constructor
      · intro h
        right
        exact h.symm
      · rintro (h | h)
        · omega
        · exact h.symm
  refine ⟨hw, ?_⟩
  rw [hw, Prod.mk.injEq, cut, cut]

theorem startEnd_empty_duration_witness :
    startEnd ⟨go "2023-01-01T00:00:00Z", go "2023-01-02T00:00"⟩ []
      = (go "2023-01-01T00:00", go "2023-01-02T00:00") :=
  (startEnd_empty_duration ⟨go "2023-01-01T00:00:00Z", go "2023-01-02T00:00"⟩
    (by decide) (by decide)).1.trans (by decide)

/-! ## Properties of `ChartsHandler` -/

theorem render_calls_ok (env : Env) (calls : List Call) (family : GoString) (doc : RenderDoc)
    (templ : Template) (h : env.GetChartTemplate family = .ok templ) :
    (render env calls family doc).calls
      = calls ++ [.GetChartTemplate family, .Execute family doc] := by
  unfold render
  rw [h]
  rcases hx : templ.Execute doc with ⟨w, _ | e⟩ <;> simp [hx]

/-- C1: the dispatch table.  With the dataset resolved, the aggregate query of
the row succeeding and the template of the row's family found, the handler
executes that template on a context carrying the row's chart key and the
registry entry of that key. -/
theorem ChartsHandler_dispatch_table (env : Env) (r : Request) (dbase : Database)
    (templ : Template) (hdb : env.GetDatabase r.hatchet = .ok dbase) :
    (r.attr = go "ops" → (dbase.GetAverageOpTime r.duration).2 = none →
        env.GetChartTemplate BUBBLE_CHART = .ok templ →
        rendersWith (ChartsHandler env r) (.GetAverageOpTime r.duration)
          (go "ops") BUBBLE_CHART = true)
    ∧ (r.attr = go "slowops" → (r.type = go "" ∨ r.type = go "stats") →
        (dbase.GetSlowOpsCounts r.duration).2 = none →
        env.GetChartTemplate BUBBLE_CHART = .ok templ →
        rendersWith (ChartsHandler env r) (.GetSlowOpsCounts r.duration)
          (go "slowops") BUBBLE_CHART = true)
    ∧ (r.attr = go "slowops" → r.type = go "counts" →
        (dbase.GetOpsCounts r.duration).2 = none →
        env.GetChartTemplate PIE_CHART = .ok templ →
        rendersWith (ChartsHandler env r) (.GetOpsCounts r.duration)
          (go "slowops-counts") PIE_CHART = true)
    ∧ (r.attr = go "connections" → (r.type = go "" ∨ r.type = go "accepted") →
        (dbase.GetAcceptedConnsCounts r.duration).2 = none →
        env.GetChartTemplate PIE_CHART = .ok templ →
        rendersWith (ChartsHandler env r) (.GetAcceptedConnsCounts r.duration)
          (go "connections-accepted") PIE_CHART = true)
    ∧ (r.attr = go "connections" → r.type = go "time" →
        (dbase.GetConnectionStats (go "time") r.duration).2 = none →
        env.GetChartTemplate BAR_CHART = .ok templ →
        rendersWith (ChartsHandler env r) (.GetConnectionStats (go "time") r.duration)
          (go "connections-time") BAR_CHART = true)
    ∧ (r.attr = go "connections" → r.type = go "total" →
        (dbase.GetConnectionStats (go "total") r.duration).2 = none →
        env.GetChartTemplate BAR_CHART = .ok templ →
        rendersWith (ChartsHandler env r) (.GetConnectionStats (go "total") r.duration)
          (go "connections-total") BAR_CHART = true)
    ∧ (r.attr = go "reslen" → (dbase.GetReslenByClients r.duration).2 = none →
        env.GetChartTemplate PIE_CHART = .ok templ →
        rendersWith (ChartsHandler env r) (.GetReslenByClients r.duration)
          (go "reslen") PIE_CHART = true) := by
  have n1 : go "slowops" ≠ go "ops" := by decide
  have n2 : go "connections" ≠ go "ops" := by decide
  have n3 : go "connections" ≠ go "slowops" := by decide
  have n4 : go "reslen" ≠ go "ops" := by decide
  have n5 : go "reslen" ≠ go "slowops" := by decide
  have n6 : go "reslen" ≠ go "connections" := by decide
  have m1 : go "counts" ≠ go "" := by decide
  have m2 : go "counts" ≠ go "stats" := by decide
  have m3 : go "time" ≠ go "" := by decide
  have m4 : go "time" ≠ go "accepted" := by decide
  have m5 : go "total" ≠ go "" := by decide
  have m6 : go "total" ≠ go "accepted" := by decide
  have k1 : go "connections-" ++ go "time" = go "connections-time" := by decide
  have k2 : go "connections-" ++ go "total" = go "connections-total" := by decide
  refine ⟨?_, ?_, ?_, ?_, ?_, ?_, ?_⟩
  · intro ha hq ht
    rcases hres : dbase.GetAverageOpTime r.duration with ⟨docs, err⟩
    rw [hres] at hq
    simp only at hq
    subst hq
    simp [ChartsHandler, hdb, ha, hres, rendersWith, render_calls_ok _ _ _ _ _ ht]
  · intro ha hty hq ht
    rcases hres : dbase.GetSlowOpsCounts r.duration with ⟨docs, err⟩
    rw [hres] at hq
    simp only at hq
    subst hq
    simp [ChartsHandler, hdb, ha, n1, hty, hres, rendersWith, render_calls_ok _ _ _ _ _ ht]
  · intro ha hty hq ht
    rcases hres : dbase.GetOpsCounts r.duration with ⟨docs, err⟩
    rw [hres] at hq
    simp only at hq
    subst hq
    simp [ChartsHandler, hdb, ha, n1, hty, m1, m2, hres, rendersWith,
      render_calls_ok _ _ _ _ _ ht]
  · intro ha hty hq ht
    rcases hres : dbase.GetAcceptedConnsCounts r.duration with ⟨docs, err⟩
    rw [hres] at hq
    simp only at hq
    subst hq
    simp [ChartsHandler, hdb, ha, n2, n3, hty, hres, rendersWith, render_calls_ok _ _ _ _ _ ht]
  · intro ha hty hq ht
    rcases hres : dbase.GetConnectionStats (go "time") r.duration with ⟨docs, err⟩
    rw [hres] at hq
    simp only at hq
    subst hq
    simp [ChartsHandler, hdb, ha, n2, n3, hty, m3, m4, k1, hres, rendersWith,
      render_calls_ok _ _ _ _ _ ht]
  · intro ha hty hq ht
    rcases hres : dbase.GetConnectionStats (go "total") r.duration with ⟨docs, err⟩
    rw [hres] at hq
    simp only at hq
    subst hq
    simp [ChartsHandler, hdb, ha, n2, n3, hty, m5, m6, k2, hres, rendersWith,
      render_calls_ok _ _ _ _ _ ht]
  · intro ha hq ht
    rcases hres : dbase.GetReslenByClients r.duration with ⟨docs, err⟩
    rw [hres] at hq
    simp only at hq
    subst hq
    simp [ChartsHandler, hdb, ha, n4, n5, n6, hres, rendersWith, render_calls_ok _ _ _ _ _ ht]

theorem ChartsHandler_dispatch_table_witness :
    rendersWith (ChartsHandler sampleEnv ⟨go "demo", go "connections", go "total", go ""⟩)
      (.GetConnectionStats (go "total") (go "")) (go "connections-total") BAR_CHART = true :=
  (ChartsHandler_dispatch_table sampleEnv ⟨go "demo", go "connections", go "total", go ""⟩
    sampleDatabase sampleTemplate rfl).2.2.2.2.2.1 rfl rfl rfl rfl

theorem render_window_ok (env : Env) (calls : List Call) (family : GoString) (doc : RenderDoc)
    (templ : Template) (h : env.GetChartTemplate family = .ok templ) :
    renderedWindow (render env calls family doc) = some (doc.Start, doc.End) := by
  unfold renderedWindow
  rw [render_calls_ok env calls family doc templ h]
  simp

/-- C5 as stated fails: in the `connections` branch with subtype `time` the
query returns a row, and the window handed to the template is still the
dataset span cut to the minute, not the row's timestamp. -/
theorem connections_window_not_overridden :
    sampleDatabase.GetConnectionStats (go "time") (go "")
        = ([⟨go "2023-01-06T10:00", 4, 2⟩], none)
      ∧ renderedWindow (ChartsHandler sampleEnv ⟨go "demo", go "connections", go "time", go ""⟩)
        = some (go "2023-01-01T00:00", go "2023-01-31T00:00")
      ∧ renderedWindow (ChartsHandler sampleEnv ⟨go "demo", go "connections", go "time", go ""⟩)
        ≠ some (go "2023-01-06T10:00", go "2023-01-06T10:00") := by
  decide

/-- C5 amended: in the `ops` branch and in the `slowops` branch with subtype
empty or `stats`, a successful dispatch whose query returns at least one row
hands the template the window (first row's date, last row's date), whatever
the duration and the dataset span; in every other branch a successful dispatch
hands the template the window resolved from the duration or the dataset span,
whatever rows the query returns. -/
theorem ChartsHandler_window (env : Env) (r : Request) (dbase : Database) (templ : Template)
    (hdb : env.GetDatabase r.hatchet = .ok dbase) :
    (∀ docs first last, docs.head? = some first → docs.getLast? = some last →
      r.attr = go "ops" → dbase.GetAverageOpTime r.duration = (docs, none) →
      env.GetChartTemplate BUBBLE_CHART = .ok templ →
      renderedWindow (ChartsHandler env r) = some (first.Date, last.Date))
    ∧ (∀ docs first last, docs.head? = some first → docs.getLast? = some last →
      r.attr = go "slowops" → (r.type = go "" ∨ r.type = go "stats") →
      dbase.GetSlowOpsCounts r.duration = (docs, none) →
      env.GetChartTemplate BUBBLE_CHART = .ok templ →
      renderedWindow (ChartsHandler env r) = some (first.Date, last.Date))
    ∧ (r.attr = go "slowops" → r.type = go "counts" →
      (dbase.GetOpsCounts r.duration).2 = none →
      env.GetChartTemplate PIE_CHART = .ok templ →
      renderedWindow (ChartsHandler env r) = some (startEnd dbase.GetHatchetInfo r.duration))
    ∧ (r.attr = go "connections" → (r.type = go "" ∨ r.type = go "accepted") →
      (dbase.GetAcceptedConnsCounts r.duration).2 = none →
      env.GetChartTemplate PIE_CHART = .ok templ →
      renderedWindow (ChartsHandler env r) = some (startEnd dbase.GetHatchetInfo r.duration))
    ∧ (r.attr = go "connections" → ¬ (r.type = go "" ∨ r.type = go "accepted") →
      (dbase.GetConnectionStats r.type r.duration).2 = none →
      env.GetChartTemplate BAR_CHART = .ok templ →
      renderedWindow (ChartsHandler env r) = some (startEnd dbase.GetHatchetInfo r.duration))
    ∧ (r.attr = go "reslen" → (dbase.GetReslenByClients r.duration).2 = none →
      env.GetChartTemplate PIE_CHART = .ok templ →
      renderedWindow (ChartsHandler env r) = some (startEnd dbase.GetHatchetInfo r.duration)) := by
  have n1 : go "slowops" ≠ go "ops" := by decide
  have n2 : go "connections" ≠ go "ops" := by decide
  have n3 : go "connections" ≠ go "slowops" := by decide
  have n4 : go "reslen" ≠ go "ops" := by decide
  have n5 : go "reslen" ≠ go "slowops" := by decide
  have n6 : go "reslen" ≠ go "connections" := by decide
  have m1 : go "counts" ≠ go "" := by decide
  have m2 : go "counts" ≠ go "stats" := by decide
  refine ⟨?_, ?_, ?_, ?_, ?_, ?_⟩
  · intro docs first last hf hl ha hq ht
    simp [ChartsHandler, hdb, ha, hq, hf, hl, render_window_ok _ _ _ _ _ ht]
  · intro docs first last hf hl ha hty hq ht
    simp [ChartsHandler, hdb, ha, n1, hty, hq, hf, hl, render_window_ok _ _ _ _ _ ht]
  · intro ha hty hq ht
    rcases hres : dbase.GetOpsCounts r.duration with ⟨docs, err⟩
    rw [hres] at hq
    simp only at hq
    subst hq
    simp [ChartsHandler, hdb, ha, n1, hty, m1, m2, hres, render_window_ok _ _ _ _ _ ht]
  · intro ha hty hq ht
    rcases hres : dbase.GetAcceptedConnsCounts r.duration with ⟨docs, err⟩
    rw [hres] at hq
    simp only at hq
    subst hq
    simp [ChartsHandler, hdb, ha, n2, n3, hty, hres, render_window_ok _ _ _ _ _ ht]
  · intro ha hty hq ht
    rcases hres : dbase.GetConnectionStats r.type r.duration with ⟨docs, err⟩
    rw [hres] at hq
    simp only at hq
    subst hq
    simp [ChartsHandler, hdb, ha, n2, n3, hty, hres, render_window_ok _ _ _ _ _ ht]
  · intro ha hq ht
    rcases hres : dbase.GetReslenByClients r.duration with ⟨docs, err⟩
    rw [hres] at hq
    simp only at hq
    subst hq
    simp [ChartsHandler, hdb, ha, n4, n5, n6, hres, render_window_ok _ _ _ _ _ ht]

theorem ChartsHandler_window_witness :
    renderedWindow (ChartsHandler sampleEnv
        ⟨go "demo", go "ops", go "", go "2023-01-01T00:00,2023-01-02T00:00"⟩)
      = some (go "2023-01-02T10:00", go "2023-01-03T11:00") :=
  (ChartsHandler_window sampleEnv
      ⟨go "demo", go "ops", go "", go "2023-01-01T00:00,2023-01-02T00:00"⟩
      sampleDatabase sampleTemplate rfl).1
    [⟨go "2023-01-02T10:00", []⟩, ⟨go "2023-01-03T11:00", []⟩]
    ⟨go "2023-01-02T10:00", []⟩ ⟨go "2023-01-03T11:00", []⟩ rfl rfl rfl rfl rfl

/-- C6, the code at the failing input: attribute `connections` with subtype
`foo` renders with the chart key `connections-foo`, which the registry does
not hold, so the descriptor of the rendering context is the zero value. -/
theorem connections_unknown_subtype_zero_chart :
    charts.lookup (go "connections-foo") = none
      ∧ (renderedDoc (ChartsHandler sampleEnv
          ⟨go "demo", go "connections", go "foo", go ""⟩)).map (fun d => (d.Type_, d.Chart))
        = some (go "connections-foo", Chart.zero) := by
  decide

theorem render_outcome (env : Env) (q : Call) (family : GoString) (doc : RenderDoc) :
    RenderOutcome env (render env [q] family doc) q := by
  refine ⟨family, ?_⟩
  unfold render
  rcases ht : env.GetChartTemplate family with e | templ
  · left
    exact ⟨e, rfl, rfl⟩
  · right
    rcases hx : templ.Execute doc with ⟨w, _ | e⟩
    · exact ⟨templ, doc, w, rfl, Or.inl ⟨hx, by simp [hx]⟩⟩
    · exact ⟨templ, doc, w, rfl, Or.inr ⟨e, hx, by simp [hx]⟩⟩

/-- C9 as stated fails in its last clause: when the query and the template
lookup succeed and the execution of the template stops with an error after
writing part of the page, the response holds that part followed by the error
payload, which is neither the page alone nor the error payload alone. -/
theorem ChartsHandler_page_then_error :
    recognized ⟨go "demo", go "ops", go "", go ""⟩ = true
      ∧ (ChartsHandler brokenTemplateEnv ⟨go "demo", go "ops", go "", go ""⟩).body
        = [.page (go "<html>"), .error (go "boom")]
      ∧ (∀ w, (ChartsHandler brokenTemplateEnv ⟨go "demo", go "ops", go "", go ""⟩).body
          ≠ [.page w])
      ∧ (∀ e, (ChartsHandler brokenTemplateEnv ⟨go "demo", go "ops", go "", go ""⟩).body
          ≠ [.error e]) := by
  have hb : (ChartsHandler brokenTemplateEnv ⟨go "demo", go "ops", go "", go ""⟩).body
      = [.page (go "<html>"), .error (go "boom")] := by decide
  refine ⟨by decide, hb, ?_, ?_⟩
  · intro w
    rw [hb]
    simp
  · intro e
    rw [hb]
    simp

/-- C9 amended: for every recognized combination the handler invokes exactly
one aggregate query; if that query fails the response is only the error
payload with the query's message, with no template looked up and no further
call; if the template lookup fails the response is only the error payload with
the lookup's message, with nothing executed; otherwise the template is
executed once and the response is the page it wrote, followed by the error
payload exactly when the execution itself failed. -/
theorem ChartsHandler_outcomes (env : Env) (r : Request) (dbase : Database)
    (hdb : env.GetDatabase r.hatchet = .ok dbase) (hrec : recognized r = true) :
    ∃ q, q.isQuery = true
      ∧ ((∃ e, queryError dbase q = some e ∧ ChartsHandler env r = ⟨[q], [.error e]⟩)
        ∨ (queryError dbase q = none ∧ RenderOutcome env (ChartsHandler env r) q)) := by
  have n1 : go "slowops" ≠ go "ops" := by decide
  have n2 : go "connections" ≠ go "ops" := by decide
  have n3 : go "connections" ≠ go "slowops" := by decide
  have n4 : go "reslen" ≠ go "ops" := by decide
  have n5 : go "reslen" ≠ go "slowops" := by decide
  have n6 : go "reslen" ≠ go "connections" := by decide
  have m1 : go "counts" ≠ go "" := by decide
  have m2 : go "counts" ≠ go "stats" := by decide
  simp only [recognized, decide_eq_true_eq] at hrec
  rcases hrec with ha | ha | ha | ⟨ha, hty | hty | hty⟩
  · refine ⟨.GetAverageOpTime r.duration, rfl, ?_⟩
    rcases hres : dbase.GetAverageOpTime r.duration with ⟨docs, _ | e⟩
    · right
      refine ⟨by simp [queryError, hres], ?_⟩
      simp only [ChartsHandler, hdb, ha, hres, if_true]
      exact render_outcome _ _ _ _
    · left
      exact ⟨e, by simp [queryError, hres], by simp [ChartsHandler, hdb, ha, hres]⟩
  · by_cases hty : r.type = go "" ∨ r.type = go "accepted"
    · refine ⟨.GetAcceptedConnsCounts r.duration, rfl, ?_⟩
      rcases hres : dbase.GetAcceptedConnsCounts r.duration with ⟨docs, _ | e⟩
      · right
        refine ⟨by simp [queryError, hres], ?_⟩
        simp only [ChartsHandler, hdb, ha, n2, n3, hty, hres, if_true, if_false]
        exact render_outcome _ _ _ _
      · left
        exact ⟨e, by simp [queryError, hres],
          by simp [ChartsHandler, hdb, ha, n2, n3, hty, hres]⟩
    · refine ⟨.GetConnectionStats r.type r.duration, rfl, ?_⟩
      rcases hres : dbase.GetConnectionStats r.type r.duration with ⟨docs, _ | e⟩
      · right
        refine ⟨by simp [queryError, hres], ?_⟩
        simp only [ChartsHandler, hdb, ha, n2, n3, hty, hres, if_true, if_false]
        exact render_outcome _ _ _ _
      · left
        exact ⟨e, by simp [queryError, hres],
          by simp [ChartsHandler, hdb, ha, n2, n3, hty, hres]⟩
  · refine ⟨.GetReslenByClients r.duration, rfl, ?_⟩
    rcases hres : dbase.GetReslenByClients r.duration with ⟨docs, _ | e⟩
    · right
      refine ⟨by simp [queryError, hres], ?_⟩
      simp only [ChartsHandler, hdb, ha, n4, n5, n6, hres, if_true, if_false]
      exact render_outcome _ _ _ _
    · left
      exact ⟨e, by simp [queryError, hres], by simp [ChartsHandler, hdb, ha, n4, n5, n6, hres]⟩
  · refine ⟨.GetSlowOpsCounts r.duration, rfl, ?_⟩
    rcases hres : dbase.GetSlowOpsCounts r.duration with ⟨docs, _ | e⟩
    · right
      refine ⟨by simp [queryError, hres], ?_⟩
      simp only [ChartsHandler, hdb, ha, n1, hty, hres, if_true, if_false, true_or]
      exact render_outcome _ _ _ _
    · left
      exact ⟨e, by simp [queryError, hres], by simp [ChartsHandler, hdb, ha, n1, hty, hres]⟩
  · refine ⟨.GetSlowOpsCounts r.duration, rfl, ?_⟩
    rcases hres : dbase.GetSlowOpsCounts r.duration with ⟨docs, _ | e⟩
    · right
      refine ⟨by simp [queryError, hres], ?_⟩
      simp only [ChartsHandler, hdb, ha, n1, hty, hres, if_true, if_false, or_true]
      exact render_outcome _ _ _ _
    · left
      exact ⟨e, by simp [queryError, hres], by simp [ChartsHandler, hdb, ha, n1, hty, hres]⟩
  · refine ⟨.GetOpsCounts r.duration, rfl, ?_⟩
    rcases hres : dbase.GetOpsCounts r.duration with ⟨docs, _ | e⟩
    · right
      refine ⟨by simp [queryError, hres], ?_⟩
      simp only [ChartsHandler, hdb, ha, n1, hty, m1, m2, hres, if_true, if_false, or_self]
      exact render_outcome _ _ _ _
    · left
      exact ⟨e, by simp [queryError, hres],
        by simp [ChartsHandler, hdb, ha, n1, hty, m1, m2, hres]⟩

theorem ChartsHandler_outcomes_witness :
    recognized ⟨go "demo", go "slowops", go "counts", go ""⟩ = true
      ∧ ChartsHandler failingEnv ⟨go "demo", go "slowops", go "counts", go ""⟩
        = ⟨[.GetOpsCounts (go "")], [.error (go "no such table")]⟩
      ∧ ∃ q, q.isQuery = true
        ∧ ((∃ e, queryError failingDatabase q = some e
            ∧ ChartsHandler failingEnv ⟨go "demo", go "slowops", go "counts", go ""⟩
              = ⟨[q], [.error e]⟩)
          ∨ (queryError failingDatabase q = none
            ∧ RenderOutcome failingEnv
              (ChartsHandler failingEnv ⟨go "demo", go "slowops", go "counts", go ""⟩) q)) :=
  ⟨by decide, by decide,
    ChartsHandler_outcomes failingEnv ⟨go "demo", go "slowops", go "counts", go ""⟩
      failingDatabase rfl (by decide)⟩

/-- C10: for an attribute other than `ops`, `slowops`, `connections` and
`reslen`, and for attribute `slowops` with a subtype other than empty, `stats`
and `counts`, the handler, once the dataset is resolved, invokes no aggregate
query, looks up and executes no template and writes nothing. -/
theorem ChartsHandler_unrecognized (env : Env) (r : Request) (dbase : Database)
    (hdb : env.GetDatabase r.hatchet = .ok dbase)
    (h : (r.attr ≠ go "ops" ∧ r.attr ≠ go "slowops" ∧ r.attr ≠ go "connections"
          ∧ r.attr ≠ go "reslen")
        ∨ (r.attr = go "slowops" ∧ r.type ≠ go "" ∧ r.type ≠ go "stats"
          ∧ r.type ≠ go "counts")) :
    ChartsHandler env r = ⟨[], []⟩ := by
  have n1 : go "slowops" ≠ go "ops" := by decide
  rcases h with ⟨h1, h2, h3, h4⟩ | ⟨ha, t1, t2, t3⟩
  · simp [ChartsHandler, hdb, h1, h2, h3, h4]
  · simp [ChartsHandler, hdb, ha, n1, t1, t2, t3]

theorem ChartsHandler_unrecognized_witness :
    ChartsHandler sampleEnv ⟨go "demo", go "slowops", go "ips", go ""⟩ = ⟨[], []⟩
      ∧ ChartsHandler sampleEnv ⟨go "demo", go "latency", go "", go ""⟩ = ⟨[], []⟩ :=
  ⟨ChartsHandler_unrecognized sampleEnv ⟨go "demo", go "slowops", go "ips", go ""⟩
      sampleDatabase rfl (Or.inr (by decide)),
    ChartsHandler_unrecognized sampleEnv ⟨go "demo", go "latency", go "", go ""⟩
      sampleDatabase rfl (Or.inl (by decide))⟩

/-! ## `highlightLog` at the terms that break its pattern -/

/-- C7, the code at the failing inputs.  The term `x)|(y` makes the pattern
`(?i)(x)|(y)`, whose match of `y` leaves group 1 unset: the line `y` comes back
as an empty pair of delimiters and its character is lost.  The term `(` makes
an invalid pattern, on which `MustCompile` panics, so nothing is returned.
Without extra terms the line `took 523ms` comes back with only its duration
wrapped. -/
theorem highlightLog_term_drops_text :
    highlightLog "y".toList ["x)|(y".toList] = .ok "<mark></mark>".toList
      ∧ ¬ "y".toList.Sublist "<mark></mark>".toList
      ∧ highlightLog "took 523ms".toList ["(".toList] = .error .panic
      ∧ highlightLog "took 523ms".toList [] = .ok "took <mark>523ms</mark>".toList := by
  decide

/-- C8, the code at the failing input.  The term `a+b` is compiled as the
pattern `(?i)(a+b)`: on the line `a+b aab` the pass wraps `aab`, which is not
an occurrence of the term, and leaves unwrapped the occurrence of the term at
the head of the line. -/
theorem highlightLog_term_not_literal :
    highlightLog "a+b aab".toList ["a+b".toList] = .ok "a+b <mark>aab</mark>".toList
      ∧ highlightParam "a+b".toList "a+b aab".toList = .ok "a+b <mark>aab</mark>".toList
      ∧ "a+b aab".toList.take 3 = "a+b".toList
      ∧ "a+b aab".toList.drop 4 = "aab".toList
      ∧ "aab".toList ≠ "a+b".toList := by
  decide

end Hatchet
